import Mathlib

/-!
Verification of the synerfgine hybrid renderer core against its
natural-language specification.

The development shallowly embeds the relevant program fragments:

* `src/src/synerfgine/syn_world.cu` — the `gpu_draw_object` CUDA kernel
  (per-pixel ray/triangle intersection loop and diffuse shading);
* `src/scripts/virtual_desc/main.frag` — the foveated compositing
  fragment shader (`unwarp` and the fragment entry point);
* `src/src/synerfgine/engine.cu` — `Engine::update_world_objects`
  (dirty-flag driven GPU upload and accumulation reset);
* `src/src/synerfgine/display.cu` — `Display::init_window`,
  `Display::destroy`, `Display::advance_image_count`,
  `Display::save_image`.

Float arithmetic is embedded as real arithmetic; GPU buffers indexed per
pixel are embedded per pixel (one kernel thread is one function
evaluation); stateful member functions are embedded as explicit
state-passing functions.
-/

namespace Sng

/-- Three-component vector over the reals, embedding the float `vec3`. -/
structure Vec3 where
  x : ℝ
  y : ℝ
  z : ℝ

/-- Four-component color over the reals, embedding the float `vec4`. -/
structure Vec4 where
  r : ℝ
  g : ℝ
  b : ℝ
  a : ℝ

/-- Componentwise vector addition. -/
def vadd (u v : Vec3) : Vec3 := ⟨u.x + v.x, u.y + v.y, u.z + v.z⟩

/-- Componentwise vector subtraction. -/
def vsub (u v : Vec3) : Vec3 := ⟨u.x - v.x, u.y - v.y, u.z - v.z⟩

/-- Scalar multiplication of a vector. -/
def vsmul (c : ℝ) (v : Vec3) : Vec3 := ⟨c * v.x, c * v.y, c * v.z⟩

/-- Dot product. -/
def dot (u v : Vec3) : ℝ := u.x * v.x + u.y * v.y + u.z * v.z

/-- Euclidean length, embedding GLSL/CUDA `length`. -/
noncomputable def vlen (v : Vec3) : ℝ := Real.sqrt (dot v v)

/-- Normalization, embedding GLSL/CUDA `normalize`: divide by the length. -/
noncomputable def vnormalize (v : Vec3) : Vec3 :=
  ⟨v.x / vlen v, v.y / vlen v, v.z / vlen v⟩

/-- Modelled from the spec: `ngp::Triangle` (its `ray_intersect` and
`normal` members) lives in the upstream instant-ngp headers, not in this
repository's sources.  The kernel only consumes, per triangle, the
intersection parameter `ray_intersect(ro, rd)` and the face `normal()`,
so a triangle is embedded as exactly those two capabilities. -/
structure Triangle where
  rayIntersect : Vec3 → Vec3 → ℝ
  normal : Vec3

/-- The intersection loop of `gpu_draw_object` (syn_world.cu lines
129-135): the accumulator holds the running `(dt, normal)` pair; a
triangle replaces it exactly when `t < dt && t > MIN_RT_DIST`. -/
noncomputable def rt_loop (minDist : ℝ) (ro rd : Vec3) :
    ℝ × Vec3 → List Triangle → ℝ × Vec3
  | acc, [] => acc
  | acc, tri :: rest =>
    let t := tri.rayIntersect ro rd
    if t < acc.1 ∧ t > minDist then
      rt_loop minDist ro rd (t, tri.normal) rest
    else
      rt_loop minDist ro rd acc rest

/-- One pixel of the `gpu_draw_object` kernel (syn_world.cu lines
118-147).  `minDist`/`maxDist` embed the upstream constants
`ngp::MIN_RT_DIST`/`ngp::MAX_RT_DIST` (not in this repository's
sources), `sunPos` embeds `sun.pos` (the only member of the `Light`
argument the kernel reads).  The result is the `(rgba, depth)` pair the
kernel leaves in its output buffers at this pixel.  The uninitialized
local `vec3 normal` is embedded as the zero vector; it is only consumed
on the hit branch, which implies at least one loop update occurred. -/
noncomputable def gpu_draw_object (minDist maxDist : ℝ) (ro rd : Vec3)
    (tris : List Triangle) (sunPos : Vec3) : Vec4 × ℝ :=
  let res := rt_loop minDist ro rd (maxDist, ⟨0, 0, 0⟩) tris
  let dt := res.1
  if dt < maxDist then
    let hit := vadd ro (vsmul dt rd)
    let toSun := vnormalize (vsub sunPos hit)
    let ndotv := dot res.2 toSun
    (⟨ndotv * 1, ndotv * (1 / 5), ndotv * 0, 1⟩, maxDist)
  else
    (⟨0, 0, 0, 1⟩, maxDist)

/-- A triangle is a valid hit for the claims when its intersection
parameter lies strictly between the two distance bounds. -/
def validHit (minDist maxDist : ℝ) (ro rd : Vec3) (tri : Triangle) : Prop :=
  minDist < tri.rayIntersect ro rd ∧ tri.rayIntersect ro rd < maxDist

/-- The engine's configured background/clear color, embedding
`m_default_clear_color`: the engine header declares it with the black
default `vec3 m_default_clear_color{0.0}`, and `Engine::init`
(engine.cu lines 161-163) overrides it with the `clear_color` entry of
the rendering configuration when that key is present. -/
def configured_clear_color (conf : Option Vec3) : Vec3 := conf.getD ⟨0, 0, 0⟩

/-- Per-axis piecewise-quadratic foveation warp parameters, embedding
the `FoveationWarp` uniform struct of main.frag (fed from the upstream
`ngp::FoveationPiecewiseQuadratic` in `Display::transfer_texture`). -/
structure FovWarp where
  al : ℝ
  bl : ℝ
  cl : ℝ
  am : ℝ
  bm : ℝ
  ar : ℝ
  br : ℝ
  cr : ℝ
  switch_left : ℝ
  switch_right : ℝ
  inv_switch_left : ℝ
  inv_switch_right : ℝ

/-- Left quadratic-inverse branch of the shader `unwarp`
(main.frag line 27). -/
noncomputable def unwarp_left (w : FovWarp) (y : ℝ) : ℝ :=
  (Real.sqrt (-4 * w.al * w.cl + 4 * w.al * y + w.bl * w.bl) - w.bl) / (2 * w.al)

/-- Middle linear branch of the shader `unwarp` (main.frag line 31). -/
noncomputable def unwarp_mid (w : FovWarp) (y : ℝ) : ℝ := (y - w.bm) / w.am

/-- Right quadratic-inverse branch of the shader `unwarp`
(main.frag line 29). -/
noncomputable def unwarp_right (w : FovWarp) (y : ℝ) : ℝ :=
  (Real.sqrt (-4 * w.ar * w.cr + 4 * w.ar * y + w.br * w.br) - w.br) / (2 * w.ar)

/-- GLSL `clamp(y, 0.0, 1.0)` (main.frag line 25). -/
def clamp01 (y : ℝ) : ℝ := min (max y 0) 1

/-- The branch selection of the shader `unwarp` (main.frag lines
26-32), applied after clamping. -/
noncomputable def unwarp_branch (w : FovWarp) (y : ℝ) : ℝ :=
  if y < w.inv_switch_left then unwarp_left w y
  else if y > w.inv_switch_right then unwarp_right w y
  else unwarp_mid w y

/-- The shader function `unwarp` (main.frag lines 24-33). -/
noncomputable def unwarp (w : FovWarp) (y : ℝ) : ℝ :=
  unwarp_branch w (clamp01 y)

/-- Modelled from the spec: the FoveationWarp invariant.  The warp
construction (upstream `ngp::FoveationPiecewiseQuadratic`) is not in
this repository's sources; the spec asks that the piecewise warp
(left quadratic `al x^2 + bl x + cl`, middle linear `am x + bm`, right
quadratic `ar x^2 + br x + cr`, switching at `switch_left` and
`switch_right`) be monotonic and continuous across segment boundaries
with a well-defined inverse.  Concretely: positive leading slope on
each segment, non-negative quadratic derivative at the switch points,
value agreement of adjacent segments at the switch points, and inverse
switch points equal to the warp values at the switch points. -/
def warp_invariant (w : FovWarp) : Prop :=
  0 < w.al ∧ 0 < w.am ∧ 0 < w.ar ∧
  w.switch_left ≤ w.switch_right ∧
  0 ≤ 2 * w.al * w.switch_left + w.bl ∧
  0 ≤ 2 * w.ar * w.switch_right + w.br ∧
  w.al * w.switch_left ^ 2 + w.bl * w.switch_left + w.cl =
    w.am * w.switch_left + w.bm ∧
  w.ar * w.switch_right ^ 2 + w.br * w.switch_right + w.cr =
    w.am * w.switch_right + w.bm ∧
  w.inv_switch_left = w.am * w.switch_left + w.bm ∧
  w.inv_switch_right = w.am * w.switch_right + w.bm

/-- A CPU-side scene entity (object, material or light): an abstract
payload plus the per-entity `is_dirty` flag.  The payload stands for the
entity data mirrored to the GPU (`ObjectTransform` / `Material` /
`Light`); its concrete layout is irrelevant to the claims. -/
structure WEntity where
  val : ℕ
  is_dirty : Bool
deriving DecidableEq

/-- The slice of `Engine` state read and written by
`Engine::update_world_objects` (engine.cu lines 80-127), plus the
accumulation sample counter it resets.  `spp` models the progressive
sample counter held by the raytracer/testbed; `reset_accumulation`
(upstream of this repository) sets it to zero. -/
structure EngineState where
  objects : List WEntity
  materials : List WEntity
  lights : List WEntity
  d_world : List ℕ
  d_materials : List ℕ
  d_lights : List ℕ
  m_is_dirty : Bool
  enable_animations : Bool
  testbed_present : Bool
  spp : ℕ
deriving DecidableEq

/-- Effects of one `update_world_objects` call: how many category
uploads were issued and whether the accumulation buffers were reset. -/
structure UpdateEffects where
  uploads : ℕ
  did_reset : Bool
deriving DecidableEq

/-- Clear every dirty flag in a category (the scan loops at engine.cu
lines 83-86, 99-102, 109-112). -/
def clear_dirty (l : List WEntity) : List WEntity :=
  l.map fun e => { e with is_dirty := false }

/-- Whether any entity of a category is dirty (the `is_any_obj_dirty`
accumulation in the scan loops). -/
def any_dirty (l : List WEntity) : Bool :=
  l.any (·.is_dirty)

/-- `Engine::update_world_objects` (engine.cu lines 80-127).
`animStep` abstracts `next_frame(m_anim_speed)` (defined in headers
outside this repository's sources); it is applied to objects and lights
when animations are enabled.  Per the code: each category's dirty flags
are scanned and cleared; the object array is rebuilt and uploaded when
any object is dirty or animations are enabled; the material array when
any material is dirty; the light array when any light is dirty or
animations are enabled; `needs_reset` collects those branches plus the
engine redraw flag `m_is_dirty`, and the accumulation buffers are reset
when `needs_reset` holds and the testbed pointer is non-null. -/
def update_world_objects (animStep : ℕ → ℕ) (s : EngineState) :
    EngineState × UpdateEffects :=
  let objDirty := any_dirty s.objects
  let objs1 := clear_dirty s.objects
  let objUpload := objDirty || s.enable_animations
  let objs2 := if objUpload && s.enable_animations then
      objs1.map (fun e => { e with val := animStep e.val }) else objs1
  let dWorld2 := if objUpload then objs2.map (·.val) else s.d_world
  let matDirty := any_dirty s.materials
  let mats1 := clear_dirty s.materials
  let dMats2 := if matDirty then mats1.map (·.val) else s.d_materials
  let lightDirty := any_dirty s.lights
  let lights1 := clear_dirty s.lights
  let lightUpload := lightDirty || s.enable_animations
  let lights2 := if lightUpload && s.enable_animations then
      lights1.map (fun e => { e with val := animStep e.val }) else lights1
  let dLights2 := if lightUpload then lights2.map (·.val) else s.d_lights
  let needsReset := objUpload || matDirty || lightUpload || s.m_is_dirty
  let didReset := needsReset && s.testbed_present
  ({ objects := objs2, materials := mats1, lights := lights2,
     d_world := dWorld2, d_materials := dMats2, d_lights := dLights2,
     m_is_dirty := s.m_is_dirty, enable_animations := s.enable_animations,
     testbed_present := s.testbed_present,
     spp := if didReset then 0 else s.spp },
   { uploads := (if objUpload then 1 else 0) + (if matDirty then 1 else 0) +
       (if lightUpload then 1 else 0),
     did_reset := didReset })

/-- Number of dirty entities in a category. -/
def dirty_count (l : List WEntity) : ℕ :=
  (l.filter (·.is_dirty)).length

/-- Engine state used by the C4 counterexample: every entity clean, the
redraw flag unset, but animations enabled. -/
def animState : EngineState :=
  { objects := [⟨5, false⟩], materials := [], lights := [⟨7, false⟩],
    d_world := [], d_materials := [], d_lights := [], m_is_dirty := false,
    enable_animations := true, testbed_present := true, spp := 3 }

/-- Engine state with every entity clean, animations off, redraw flag
unset. -/
def cleanState : EngineState :=
  { objects := [⟨1, false⟩], materials := [⟨2, false⟩], lights := [⟨3, false⟩],
    d_world := [], d_materials := [], d_lights := [], m_is_dirty := false,
    enable_animations := false, testbed_present := true, spp := 9 }

/-- Engine state whose single dirty entity is one material. -/
def oneDirtyState : EngineState :=
  { objects := [⟨1, false⟩], materials := [⟨2, true⟩], lights := [⟨3, false⟩],
    d_world := [], d_materials := [], d_lights := [], m_is_dirty := false,
    enable_animations := false, testbed_present := true, spp := 9 }

/-- Engine state with every entity clean and animations off but the
engine redraw flag set. -/
def redrawState : EngineState :=
  { objects := [⟨1, false⟩], materials := [⟨2, false⟩], lights := [⟨3, false⟩],
    d_world := [], d_materials := [], d_lights := [], m_is_dirty := true,
    enable_animations := false, testbed_present := true, spp := 4 }

/-- Engine state with one dirty entity in each category. -/
def allDirtyState : EngineState :=
  { objects := [⟨1, true⟩], materials := [⟨2, true⟩], lights := [⟨3, true⟩],
    d_world := [], d_materials := [], d_lights := [], m_is_dirty := false,
    enable_animations := false, testbed_present := true, spp := 5 }

/-- The fragment entry point of main.frag (lines 39-52).  A sampler
argument abstracts a GLSL `texture(...)` lookup: it maps a source
coordinate to a texel (the filtering mode — nearest or linear — is
state of the bound GL texture set in `Display::transfer_texture`, not
of the shader).  Per the shader code, only the synthetic samplers are
consumed — the neural rgba/depth lookups are commented out; the output
color is the synthetic rgb with alpha forced to 1, and the output depth
is the synthetic depth sample. -/
noncomputable def frag_main (wx wy : FovWarp)
    (synRgba : ℝ × ℝ → Vec4) (synDepth : ℝ × ℝ → ℝ)
    (nerfRgba : ℝ × ℝ → Vec4) (nerfDepth : ℝ × ℝ → ℝ)
    (uv : ℝ × ℝ) : Vec4 × ℝ :=
  let tc0 : ℝ × ℝ := (uv.1, 1 - uv.2)
  let tc : ℝ × ℝ := (unwarp wx tc0.1, unwarp wy tc0.2)
  let syn := synRgba tc
  let sd := synDepth tc
  (⟨syn.r, syn.g, syn.b, 1⟩, sd)

/-- Modelled from the spec: straightforward alpha-composited overwrite
(source over destination), stated here only to compare the spec's
claimed compositing against the shader output. -/
def alpha_over (src dst : Vec4) : Vec4 :=
  ⟨src.a * src.r + (1 - src.a) * dst.r,
   src.a * src.g + (1 - src.a) * dst.g,
   src.a * src.b + (1 - src.a) * dst.b,
   src.a + (1 - src.a) * dst.a⟩

/-- The `Display` state consumed by `init_window`, `destroy`,
`advance_image_count` and `save_image` (display.cu).  `is_init` embeds
the static guard `Display::m_is_init`; `has_window` records whether
`m_glfw_window` is non-null; `setup_events` counts the one-time
GLFW/shader/ImGui initializations performed; `images_written` is the
sequence of numbers of the `output-XXX.png` files written so far. -/
structure DisplayState where
  is_init : Bool
  has_window : Bool
  img_count : ℕ
  img_count_max : ℕ
  setup_events : ℕ
  images_written : List ℕ
deriving DecidableEq

/-- `Display::init_window` (display.cu lines 22-31): if the static
guard is set, return null without touching anything; otherwise create
the window, zero the image counter, compile the shaders and set up
ImGui (one setup event), set the guard and return the window. -/
def init_window (s : DisplayState) : Option Unit × DisplayState :=
  if s.is_init then (none, s)
  else
    (some (),
      { s with
          is_init := true
          has_window := true
          img_count := 0
          setup_events := s.setup_events + 1 })

/-- `Display::destroy` (display.cu lines 328-341): a no-op when the
guard is clear; otherwise tear down ImGui and the window, null the
window pointer and clear the guard. -/
def destroy (s : DisplayState) : DisplayState :=
  if !s.is_init then s
  else
    { s with
        is_init := false
        has_window := false }

/-- `Display::advance_image_count` (display.cu lines 324-326):
`return m_img_count++ < m_img_count_max`. -/
def advance_image_count (s : DisplayState) : Bool × DisplayState :=
  (decide (s.img_count < s.img_count_max),
    { s with img_count := s.img_count + 1 })

/-- `Display::save_image` (display.cu lines 305-322): refuse once the
counter strictly exceeds the configured maximum; otherwise write
`output-XXX.png` numbered with the pre-incremented counter
`++m_img_count` and return true. -/
def save_image (s : DisplayState) : Bool × DisplayState :=
  if s.img_count > s.img_count_max then (false, s)
  else
    (true,
      { s with
          img_count := s.img_count + 1
          images_written := s.images_written ++ [s.img_count + 1] })

/-- Iterated `save_image`, as the engine frame loop performs while
recording (engine.cu lines 426-432: `Engine::frame` calls `save_image`
once per frame and the loop ends when it returns false). -/
def save_iter : ℕ → DisplayState → DisplayState
  | 0, s => s
  | n + 1, s => save_iter n (save_image s).2

/-- A freshly initialized recording display with a configured maximum
image count. -/
def recStart (maxc : ℕ) : DisplayState :=
  { is_init := true, has_window := true, img_count := 0,
    img_count_max := maxc, setup_events := 1, images_written := [] }

/-- A display state whose image counter has passed the configured
maximum. -/
def exceedState : DisplayState :=
  { is_init := true, has_window := true, img_count := 9,
    img_count_max := 3, setup_events := 1, images_written := [] }

/-- An already-initialized display state. -/
def initState : DisplayState :=
  { is_init := true, has_window := true, img_count := 2,
    img_count_max := 3, setup_events := 1, images_written := [] }

/-- If no triangle in the list improves on the accumulator, the
intersection loop leaves the accumulator unchanged. -/
lemma rt_loop_const (minDist : ℝ) (ro rd : Vec3) (ts : List Triangle) :
    ∀ (dt : ℝ) (n : Vec3),
    (∀ x ∈ ts, ¬(x.rayIntersect ro rd < dt ∧ x.rayIntersect ro rd > minDist)) →
    rt_loop minDist ro rd (dt, n) ts = (dt, n) := by
  induction ts with
  | nil => intro dt n _; simp [rt_loop]
  | cons x xs ih =>
    intro dt n h
    have hx := h x (List.mem_cons_self x xs)
    simp only [rt_loop]
    rw [if_neg hx]
    exact ih dt n fun y hy => h y (List.mem_cons_of_mem x hy)

/-- Full characterization of the intersection loop of `gpu_draw_object`:
whenever some triangle has a parameter strictly between `minDist` and
the starting accumulator value, the loop returns the parameter and
normal of the first enumerated triangle attaining the least such
parameter. -/
lemma rt_loop_spec (minDist : ℝ) (ro rd : Vec3) :
    ∀ (ts : List Triangle) (dt : ℝ) (n : Vec3),
    (∃ x ∈ ts, minDist < x.rayIntersect ro rd ∧ x.rayIntersect ro rd < dt) →
    ∃ k, ∃ hk : k < ts.length,
      (minDist < (ts.get ⟨k, hk⟩).rayIntersect ro rd ∧
        (ts.get ⟨k, hk⟩).rayIntersect ro rd < dt) ∧
      (rt_loop minDist ro rd (dt, n) ts).1 = (ts.get ⟨k, hk⟩).rayIntersect ro rd ∧
      (rt_loop minDist ro rd (dt, n) ts).2 = (ts.get ⟨k, hk⟩).normal ∧
      (∀ x ∈ ts, minDist < x.rayIntersect ro rd →
        (rt_loop minDist ro rd (dt, n) ts).1 ≤ x.rayIntersect ro rd) ∧
      (∀ j, ∀ hj : j < k,
        ¬(minDist < (ts.get ⟨j, hj.trans hk⟩).rayIntersect ro rd ∧
          (ts.get ⟨j, hj.trans hk⟩).rayIntersect ro rd =
            (rt_loop minDist ro rd (dt, n) ts).1)) := by
  intro ts
  induction ts with
  | nil => intro dt n h; simp at h
  | cons x xs ih =>
    intro dt n h
    by_cases hc : x.rayIntersect ro rd < dt ∧ x.rayIntersect ro rd > minDist
    · have hloop : rt_loop minDist ro rd (dt, n) (x :: xs) =
          rt_loop minDist ro rd (x.rayIntersect ro rd, x.normal) xs := by
        simp only [rt_loop]
        rw [if_pos hc]
      by_cases hex : ∃ y ∈ xs, minDist < y.rayIntersect ro rd ∧
          y.rayIntersect ro rd < x.rayIntersect ro rd
      · obtain ⟨k, hk, hvalid, heq1, heq2, hmin, hfirst⟩ :=
          ih (x.rayIntersect ro rd) x.normal hex
        refine ⟨k + 1, Nat.succ_lt_succ hk, ?_, ?_, ?_, ?_, ?_⟩
        · exact ⟨hvalid.1, hvalid.2.trans hc.1⟩
        · rw [hloop]; exact heq1
        · rw [hloop]; exact heq2
        · intro y hy hvy
          rw [hloop]
          rcases List.mem_cons.mp hy with rfl | hmem
          · rw [heq1]; exact le_of_lt hvalid.2
          · exact hmin y hmem hvy
        · intro j hj
          rw [hloop]
          match j with
          | 0 =>
            intro ⟨_, habs⟩
            rw [heq1] at habs
            exact absurd habs (ne_of_gt hvalid.2)
          | j + 1 =>
            exact hfirst j (Nat.lt_of_succ_lt_succ hj)
      · push_neg at hex
        have hconst : rt_loop minDist ro rd (x.rayIntersect ro rd, x.normal) xs =
            (x.rayIntersect ro rd, x.normal) := by
          refine rt_loop_const minDist ro rd xs _ _ ?_
          intro y hy hcon
          exact absurd hcon.1 (not_lt.mpr (le_of_not_lt
            (fun hlt => absurd hlt (not_lt.mpr (hex y hy hcon.2)))))
        refine ⟨0, Nat.succ_pos _, ⟨hc.2, hc.1⟩, ?_, ?_, ?_, ?_⟩
        · rw [hloop, hconst]
          rfl
        · rw [hloop, hconst]
          rfl
        · intro y hy hvy
          rw [hloop, hconst]
          rcases List.mem_cons.mp hy with rfl | hmem
          · exact le_refl _
          · exact hex y hmem hvy
        · intro j hj
          exact absurd hj (Nat.not_lt_zero j)
    · have hloop : rt_loop minDist ro rd (dt, n) (x :: xs) =
          rt_loop minDist ro rd (dt, n) xs := by
        simp only [rt_loop]
        rw [if_neg hc]
      have hxout : minDist < x.rayIntersect ro rd → dt ≤ x.rayIntersect ro rd := by
        intro hmx
        by_contra hlt
        exact hc ⟨lt_of_not_le hlt, hmx⟩
      have hex : ∃ y ∈ xs, minDist < y.rayIntersect ro rd ∧
          y.rayIntersect ro rd < dt := by
        obtain ⟨w, hw, hwv⟩ := h
        rcases List.mem_cons.mp hw with rfl | hmem
        · exact absurd (hxout hwv.1) (not_le.mpr hwv.2)
        · exact ⟨w, hmem, hwv⟩
      obtain ⟨k, hk, hvalid, heq1, heq2, hmin, hfirst⟩ := ih dt n hex
      refine ⟨k + 1, Nat.succ_lt_succ hk, hvalid, ?_, ?_, ?_, ?_⟩
      · rw [hloop]; exact heq1
      · rw [hloop]; exact heq2
      · intro y hy hvy
        rw [hloop]
        rcases List.mem_cons.mp hy with rfl | hmem
        · exact le_trans (le_of_lt (heq1 ▸ hvalid.2)) (hxout hvy)
        · exact hmin y hmem hvy
      · intro j hj
        rw [hloop]
        match j with
        | 0 =>
          intro ⟨hmx, habs⟩
          have habs2 : x.rayIntersect ro rd = (rt_loop minDist ro rd (dt, n) xs).1 := habs
          have h1 : dt ≤ x.rayIntersect ro rd := hxout hmx
          have h2 : (rt_loop minDist ro rd (dt, n) xs).1 < dt := heq1 ▸ hvalid.2
          rw [habs2] at h1
          exact absurd h2 (not_lt.mpr h1)
        | j + 1 =>
          exact hfirst j (Nat.lt_of_succ_lt_succ hj)

/-- C1: for every pixel ray and every triangle array containing at least
one valid intersection, the intersection loop of `gpu_draw_object`
reports the minimum intersection parameter `t` among those strictly
greater than `MIN_RT_DIST` and strictly less than `MAX_RT_DIST` (the
loop starts from the sentinel, so only parameters below it are kept),
and ties are broken by the strict less-than comparison, so the first
enumerated triangle attaining the minimum wins. -/
theorem gpu_draw_object_reports_min_t (minDist maxDist : ℝ) (ro rd : Vec3)
    (tris : List Triangle) (n0 : Vec3)
    (h : ∃ tri ∈ tris, validHit minDist maxDist ro rd tri) :
    ∃ k, ∃ hk : k < tris.length,
      validHit minDist maxDist ro rd (tris.get ⟨k, hk⟩) ∧
      (rt_loop minDist ro rd (maxDist, n0) tris).1 =
        (tris.get ⟨k, hk⟩).rayIntersect ro rd ∧
      (rt_loop minDist ro rd (maxDist, n0) tris).2 = (tris.get ⟨k, hk⟩).normal ∧
      (∀ tri ∈ tris, validHit minDist maxDist ro rd tri →
        (rt_loop minDist ro rd (maxDist, n0) tris).1 ≤ tri.rayIntersect ro rd) ∧
      (∀ j, ∀ hj : j < k,
        ¬(validHit minDist maxDist ro rd (tris.get ⟨j, hj.trans hk⟩) ∧
          (tris.get ⟨j, hj.trans hk⟩).rayIntersect ro rd =
            (rt_loop minDist ro rd (maxDist, n0) tris).1)) := by
  obtain ⟨k, hk, hvalid, heq1, heq2, hmin, hfirst⟩ :=
    rt_loop_spec minDist ro rd tris maxDist n0
      (by obtain ⟨tri, htri, hv⟩ := h; exact ⟨tri, htri, hv.1, hv.2⟩)
  refine ⟨k, hk, ⟨hvalid.1, hvalid.2⟩, heq1, heq2, ?_, ?_⟩
  · intro tri htri hv
    exact hmin tri htri hv.1
  · intro j hj ⟨hv, heq⟩
    exact hfirst j hj ⟨hv.1, heq⟩

/-- Concrete witness for C1: two triangles, parameters 7 and 3, both in
range; the loop must settle on the second one with parameter 3. -/
theorem gpu_draw_object_reports_min_t_witness :
    (∃ tri ∈ ([⟨fun _ _ => 7, ⟨1, 0, 0⟩⟩, ⟨fun _ _ => 3, ⟨0, 1, 0⟩⟩] :
        List Triangle), validHit (1 / 100) 10 ⟨0, 0, 0⟩ ⟨0, 0, 1⟩ tri) ∧
    (∃ k, ∃ hk : k < ([⟨fun _ _ => 7, ⟨1, 0, 0⟩⟩, ⟨fun _ _ => 3, ⟨0, 1, 0⟩⟩] :
        List Triangle).length,
      validHit (1 / 100) 10 ⟨0, 0, 0⟩ ⟨0, 0, 1⟩
        (([⟨fun _ _ => 7, ⟨1, 0, 0⟩⟩, ⟨fun _ _ => 3, ⟨0, 1, 0⟩⟩] :
          List Triangle).get ⟨k, hk⟩) ∧
      (rt_loop (1 / 100) ⟨0, 0, 0⟩ ⟨0, 0, 1⟩ (10, ⟨0, 0, 0⟩)
          [⟨fun _ _ => 7, ⟨1, 0, 0⟩⟩, ⟨fun _ _ => 3, ⟨0, 1, 0⟩⟩]).1 =
        (([⟨fun _ _ => 7, ⟨1, 0, 0⟩⟩, ⟨fun _ _ => 3, ⟨0, 1, 0⟩⟩] :
          List Triangle).get ⟨k, hk⟩).rayIntersect ⟨0, 0, 0⟩ ⟨0, 0, 1⟩ ∧
      (rt_loop (1 / 100) ⟨0, 0, 0⟩ ⟨0, 0, 1⟩ (10, ⟨0, 0, 0⟩)
          [⟨fun _ _ => 7, ⟨1, 0, 0⟩⟩, ⟨fun _ _ => 3, ⟨0, 1, 0⟩⟩]).2 =
        (([⟨fun _ _ => 7, ⟨1, 0, 0⟩⟩, ⟨fun _ _ => 3, ⟨0, 1, 0⟩⟩] :
          List Triangle).get ⟨k, hk⟩).normal ∧
      (∀ tri ∈ ([⟨fun _ _ => 7, ⟨1, 0, 0⟩⟩, ⟨fun _ _ => 3, ⟨0, 1, 0⟩⟩] :
          List Triangle), validHit (1 / 100) 10 ⟨0, 0, 0⟩ ⟨0, 0, 1⟩ tri →
        (rt_loop (1 / 100) ⟨0, 0, 0⟩ ⟨0, 0, 1⟩ (10, ⟨0, 0, 0⟩)
            [⟨fun _ _ => 7, ⟨1, 0, 0⟩⟩, ⟨fun _ _ => 3, ⟨0, 1, 0⟩⟩]).1 ≤
          tri.rayIntersect ⟨0, 0, 0⟩ ⟨0, 0, 1⟩) ∧
      (∀ j, ∀ hj : j < k,
        ¬(validHit (1 / 100) 10 ⟨0, 0, 0⟩ ⟨0, 0, 1⟩
            (([⟨fun _ _ => 7, ⟨1, 0, 0⟩⟩, ⟨fun _ _ => 3, ⟨0, 1, 0⟩⟩] :
              List Triangle).get ⟨j, hj.trans hk⟩) ∧
          (([⟨fun _ _ => 7, ⟨1, 0, 0⟩⟩, ⟨fun _ _ => 3, ⟨0, 1, 0⟩⟩] :
            List Triangle).get ⟨j, hj.trans hk⟩).rayIntersect ⟨0, 0, 0⟩ ⟨0, 0, 1⟩ =
            (rt_loop (1 / 100) ⟨0, 0, 0⟩ ⟨0, 0, 1⟩ (10, ⟨0, 0, 0⟩)
              [⟨fun _ _ => 7, ⟨1, 0, 0⟩⟩, ⟨fun _ _ => 3, ⟨0, 1, 0⟩⟩]).1))) :=
  ⟨⟨⟨fun _ _ => 3, ⟨0, 1, 0⟩⟩, by simp, by norm_num [validHit]⟩,
    gpu_draw_object_reports_min_t (1 / 100) 10 ⟨0, 0, 0⟩ ⟨0, 0, 1⟩
      [⟨fun _ _ => 7, ⟨1, 0, 0⟩⟩, ⟨fun _ _ => 3, ⟨0, 1, 0⟩⟩] ⟨0, 0, 0⟩
      ⟨⟨fun _ _ => 3, ⟨0, 1, 0⟩⟩, by simp, by norm_num [validHit]⟩⟩

/-- C2 counterexample: a pixel whose ray hits the triangle at `t = 5`
with the light behind the surface.  The kernel writes the color
`(-1, -1/5, 0, 1)` — the unclamped diffuse term times a hard-coded
tint — and leaves depth at the sentinel 10; the claimed color
`max 0 (dot normal toLight)` modulated by any albedo and attenuation
would have red channel `0`, and the claimed depth would be a
(normalized) hit distance rather than the miss sentinel. -/
theorem gpu_draw_object_hit_shading_counterexample :
    gpu_draw_object (1 / 100) 10 ⟨0, 0, 0⟩ ⟨0, 0, -1⟩
        [⟨fun _ _ => 5, ⟨0, 0, 1⟩⟩] ⟨0, 0, -10⟩ = (⟨-1, -(1 / 5), 0, 1⟩, 10) ∧
    max 0 (dot ⟨0, 0, 1⟩
      (vnormalize (vsub ⟨0, 0, -10⟩ (vadd ⟨0, 0, 0⟩ (vsmul 5 ⟨0, 0, -1⟩))))) = 0 ∧
    (-1 : ℝ) ≠ 0 := by
  have hs : Real.sqrt 25 = 5 := by
    rw [show (25 : ℝ) = 5 ^ 2 by norm_num]
    exact Real.sqrt_sq (by norm_num)
  refine ⟨?_, ?_, by norm_num⟩
  · norm_num [gpu_draw_object, rt_loop, vadd, vsmul, vsub, vnormalize, vlen, dot, hs]
  · norm_num [vadd, vsmul, vsub, vnormalize, vlen, dot, hs]

/-- C2 amended: the kernel always leaves depth at the sentinel
`maxDist` (the hit-distance depth write is absent); the written color
always has alpha 1, blue 0, and red equal to five times green (the
hard-coded tint `(1, 0.2, 0)` replaces any material albedo and shadow
attenuation); and on a hit the red channel is exactly the unclamped
diffuse term `dot(normal, normalize(sunPos - hitPoint))`. -/
theorem gpu_draw_object_hit_branch_amended (minDist maxDist : ℝ) (ro rd : Vec3)
    (tris : List Triangle) (sunPos : Vec3) :
    (gpu_draw_object minDist maxDist ro rd tris sunPos).2 = maxDist ∧
    (gpu_draw_object minDist maxDist ro rd tris sunPos).1.a = 1 ∧
    (gpu_draw_object minDist maxDist ro rd tris sunPos).1.b = 0 ∧
    (gpu_draw_object minDist maxDist ro rd tris sunPos).1.r =
      5 * (gpu_draw_object minDist maxDist ro rd tris sunPos).1.g ∧
    ((rt_loop minDist ro rd (maxDist, ⟨0, 0, 0⟩) tris).1 < maxDist →
      (gpu_draw_object minDist maxDist ro rd tris sunPos).1.r =
        dot (rt_loop minDist ro rd (maxDist, ⟨0, 0, 0⟩) tris).2
          (vnormalize (vsub sunPos (vadd ro
            (vsmul (rt_loop minDist ro rd (maxDist, ⟨0, 0, 0⟩) tris).1 rd))))) := by
  by_cases hlt : (rt_loop minDist ro rd (maxDist, ⟨0, 0, 0⟩) tris).1 < maxDist
  · simp only [gpu_draw_object, if_pos hlt]
    refine ⟨?_, ?_, ?_, ?_, fun _ => ?_⟩ <;> first | trivial | rfl | ring
  · simp only [gpu_draw_object, if_neg hlt]
    refine ⟨?_, ?_, ?_, ?_, fun hc => absurd hc hlt⟩ <;>
      first | trivial | rfl | norm_num

/-- Concrete witness for the amended C2: the counterexample scene is a
hit, and the amended description holds there. -/
theorem gpu_draw_object_hit_branch_amended_witness :
    (rt_loop (1 / 100) ⟨0, 0, 0⟩ ⟨0, 0, -1⟩ (10, ⟨0, 0, 0⟩)
      [⟨fun _ _ => 5, ⟨0, 0, 1⟩⟩]).1 < 10 ∧
    ((gpu_draw_object (1 / 100) 10 ⟨0, 0, 0⟩ ⟨0, 0, -1⟩
        [⟨fun _ _ => 5, ⟨0, 0, 1⟩⟩] ⟨0, 0, -10⟩).2 = 10 ∧
      (gpu_draw_object (1 / 100) 10 ⟨0, 0, 0⟩ ⟨0, 0, -1⟩
        [⟨fun _ _ => 5, ⟨0, 0, 1⟩⟩] ⟨0, 0, -10⟩).1.a = 1 ∧
      (gpu_draw_object (1 / 100) 10 ⟨0, 0, 0⟩ ⟨0, 0, -1⟩
        [⟨fun _ _ => 5, ⟨0, 0, 1⟩⟩] ⟨0, 0, -10⟩).1.b = 0 ∧
      (gpu_draw_object (1 / 100) 10 ⟨0, 0, 0⟩ ⟨0, 0, -1⟩
        [⟨fun _ _ => 5, ⟨0, 0, 1⟩⟩] ⟨0, 0, -10⟩).1.r =
        5 * (gpu_draw_object (1 / 100) 10 ⟨0, 0, 0⟩ ⟨0, 0, -1⟩
          [⟨fun _ _ => 5, ⟨0, 0, 1⟩⟩] ⟨0, 0, -10⟩).1.g ∧
      ((rt_loop (1 / 100) ⟨0, 0, 0⟩ ⟨0, 0, -1⟩ (10, ⟨0, 0, 0⟩)
          [⟨fun _ _ => 5, ⟨0, 0, 1⟩⟩]).1 < 10 →
        (gpu_draw_object (1 / 100) 10 ⟨0, 0, 0⟩ ⟨0, 0, -1⟩
          [⟨fun _ _ => 5, ⟨0, 0, 1⟩⟩] ⟨0, 0, -10⟩).1.r =
          dot (rt_loop (1 / 100) ⟨0, 0, 0⟩ ⟨0, 0, -1⟩ (10, ⟨0, 0, 0⟩)
              [⟨fun _ _ => 5, ⟨0, 0, 1⟩⟩]).2
            (vnormalize (vsub ⟨0, 0, -10⟩ (vadd ⟨0, 0, 0⟩
              (vsmul (rt_loop (1 / 100) ⟨0, 0, 0⟩ ⟨0, 0, -1⟩ (10, ⟨0, 0, 0⟩)
                [⟨fun _ _ => 5, ⟨0, 0, 1⟩⟩]).1 ⟨0, 0, -1⟩)))))) :=
  ⟨by norm_num [rt_loop],
    gpu_draw_object_hit_branch_amended (1 / 100) 10 ⟨0, 0, 0⟩ ⟨0, 0, -1⟩
      [⟨fun _ _ => 5, ⟨0, 0, 1⟩⟩] ⟨0, 0, -10⟩⟩

/-- C9 amended: when no triangle has an intersection parameter strictly
between `MIN_RT_DIST` and `MAX_RT_DIST`, the kernel writes depth equal
to the sentinel `MAX_RT_DIST` and the hard-coded opaque black color
`(0, 0, 0, 1)`; the kernel consumes no background configuration. -/
theorem gpu_draw_object_miss_amended (minDist maxDist : ℝ) (ro rd : Vec3)
    (tris : List Triangle) (sunPos : Vec3)
    (h : ∀ tri ∈ tris, ¬ validHit minDist maxDist ro rd tri) :
    gpu_draw_object minDist maxDist ro rd tris sunPos = (⟨0, 0, 0, 1⟩, maxDist) := by
  have hl : rt_loop minDist ro rd (maxDist, ⟨0, 0, 0⟩) tris = (maxDist, ⟨0, 0, 0⟩) := by
    refine rt_loop_const minDist ro rd tris maxDist ⟨0, 0, 0⟩ ?_
    intro x hx ⟨h1, h2⟩
    exact h x hx ⟨h2, h1⟩
  simp [gpu_draw_object, hl]

/-- Concrete witness for the amended C9: a single triangle whose
parameter 20 lies beyond the sentinel; the pixel is a miss. -/
theorem gpu_draw_object_miss_amended_witness :
    (∀ tri ∈ ([⟨fun _ _ => 20, ⟨1, 0, 0⟩⟩] : List Triangle),
      ¬ validHit (1 / 100) 10 ⟨0, 0, 0⟩ ⟨0, 0, 1⟩ tri) ∧
    gpu_draw_object (1 / 100) 10 ⟨0, 0, 0⟩ ⟨0, 0, 1⟩
      [⟨fun _ _ => 20, ⟨1, 0, 0⟩⟩] ⟨0, 0, 5⟩ = (⟨0, 0, 0, 1⟩, 10) :=
  ⟨by intro tri htri; rw [List.mem_singleton] at htri; subst htri;
      norm_num [validHit],
    gpu_draw_object_miss_amended (1 / 100) 10 ⟨0, 0, 0⟩ ⟨0, 0, 1⟩
      [⟨fun _ _ => 20, ⟨1, 0, 0⟩⟩] ⟨0, 0, 5⟩
      (by intro tri htri; rw [List.mem_singleton] at htri; subst htri;
          norm_num [validHit])⟩

/-- C9 counterexample: with the background configured to white (a legal
`clear_color` configuration), a missing pixel still gets the hard-coded
black, so the kernel's miss color is not the configured background. -/
theorem gpu_draw_object_miss_background_counterexample :
    (gpu_draw_object (1 / 100) 10 ⟨0, 0, 0⟩ ⟨0, 0, 1⟩
      [⟨fun _ _ => 20, ⟨1, 0, 0⟩⟩] ⟨0, 0, 5⟩).2 = 10 ∧
    (gpu_draw_object (1 / 100) 10 ⟨0, 0, 0⟩ ⟨0, 0, 1⟩
      [⟨fun _ _ => 20, ⟨1, 0, 0⟩⟩] ⟨0, 0, 5⟩).1 = ⟨0, 0, 0, 1⟩ ∧
    configured_clear_color (some ⟨1, 1, 1⟩) = ⟨1, 1, 1⟩ ∧
    (gpu_draw_object (1 / 100) 10 ⟨0, 0, 0⟩ ⟨0, 0, 1⟩
      [⟨fun _ _ => 20, ⟨1, 0, 0⟩⟩] ⟨0, 0, 5⟩).1.r ≠
      (configured_clear_color (some ⟨1, 1, 1⟩)).x := by
  have h20 : ¬((20 : ℝ) < 10 ∧ (20 : ℝ) > 1 / 100) := by norm_num
  refine ⟨?_, ?_, rfl, ?_⟩
  · norm_num [gpu_draw_object, rt_loop]
  · norm_num [gpu_draw_object, rt_loop]
  · norm_num [gpu_draw_object, rt_loop, configured_clear_color]

/-- The left branch is monotone in the warped coordinate. -/
lemma unwarp_left_mono (w : FovWarp) (hal : 0 < w.al) {a b : ℝ} (hab : a ≤ b) :
    unwarp_left w a ≤ unwarp_left w b := by
  unfold unwarp_left
  have h2 : (0 : ℝ) < 2 * w.al := by linarith
  have harg : -4 * w.al * w.cl + 4 * w.al * a + w.bl * w.bl ≤
      -4 * w.al * w.cl + 4 * w.al * b + w.bl * w.bl := by nlinarith
  have hs := Real.sqrt_le_sqrt harg
  exact div_le_div_of_nonneg_right (by linarith) h2.le

/-- The middle branch is monotone in the warped coordinate. -/
lemma unwarp_mid_mono (w : FovWarp) (ham : 0 < w.am) {a b : ℝ} (hab : a ≤ b) :
    unwarp_mid w a ≤ unwarp_mid w b := by
  unfold unwarp_mid
  exact div_le_div_of_nonneg_right (by linarith) ham.le

/-- The right branch is monotone in the warped coordinate. -/
lemma unwarp_right_mono (w : FovWarp) (har : 0 < w.ar) {a b : ℝ} (hab : a ≤ b) :
    unwarp_right w a ≤ unwarp_right w b := by
  unfold unwarp_right
  have h2 : (0 : ℝ) < 2 * w.ar := by linarith
  have harg : -4 * w.ar * w.cr + 4 * w.ar * a + w.br * w.br ≤
      -4 * w.ar * w.cr + 4 * w.ar * b + w.br * w.br := by nlinarith
  have hs := Real.sqrt_le_sqrt harg
  exact div_le_div_of_nonneg_right (by linarith) h2.le

/-- Value of the left branch at the left inverse switch point. -/
lemma unwarp_left_at_switch (w : FovWarp) (hal : 0 < w.al)
    (hdl : 0 ≤ 2 * w.al * w.switch_left + w.bl)
    (hcl : w.al * w.switch_left ^ 2 + w.bl * w.switch_left + w.cl =
      w.am * w.switch_left + w.bm)
    (hisl : w.inv_switch_left = w.am * w.switch_left + w.bm) :
    unwarp_left w w.inv_switch_left = w.switch_left := by
  unfold unwarp_left
  have hne : w.al ≠ 0 := ne_of_gt hal
  have harg : -4 * w.al * w.cl + 4 * w.al * w.inv_switch_left + w.bl * w.bl =
      (2 * w.al * w.switch_left + w.bl) ^ 2 := by
    rw [hisl, ← hcl]; ring
  rw [harg, Real.sqrt_sq hdl]
  field_simp

/-- Value of the middle branch at the left inverse switch point. -/
lemma unwarp_mid_at_switch_left (w : FovWarp) (ham : 0 < w.am)
    (hisl : w.inv_switch_left = w.am * w.switch_left + w.bm) :
    unwarp_mid w w.inv_switch_left = w.switch_left := by
  unfold unwarp_mid
  have hne : w.am ≠ 0 := ne_of_gt ham
  rw [hisl]
  field_simp

/-- Value of the middle branch at the right inverse switch point. -/
lemma unwarp_mid_at_switch_right (w : FovWarp) (ham : 0 < w.am)
    (hisr : w.inv_switch_right = w.am * w.switch_right + w.bm) :
    unwarp_mid w w.inv_switch_right = w.switch_right := by
  unfold unwarp_mid
  have hne : w.am ≠ 0 := ne_of_gt ham
  rw [hisr]
  field_simp

/-- Value of the right branch at the right inverse switch point. -/
lemma unwarp_right_at_switch (w : FovWarp) (har : 0 < w.ar)
    (hdr : 0 ≤ 2 * w.ar * w.switch_right + w.br)
    (hcr : w.ar * w.switch_right ^ 2 + w.br * w.switch_right + w.cr =
      w.am * w.switch_right + w.bm)
    (hisr : w.inv_switch_right = w.am * w.switch_right + w.bm) :
    unwarp_right w w.inv_switch_right = w.switch_right := by
  unfold unwarp_right
  have hne : w.ar ≠ 0 := ne_of_gt har
  have harg : -4 * w.ar * w.cr + 4 * w.ar * w.inv_switch_right + w.br * w.br =
      (2 * w.ar * w.switch_right + w.br) ^ 2 := by
    rw [hisr, ← hcr]; ring
  rw [harg, Real.sqrt_sq hdr]
  field_simp

/-- The branch selection of `unwarp` is monotone under the warp
invariant. -/
lemma unwarp_branch_mono (w : FovWarp) (hinv : warp_invariant w)
    {a b : ℝ} (hab : a ≤ b) : unwarp_branch w a ≤ unwarp_branch w b := by
  obtain ⟨hal, ham, har, hsw, hdl, hdr, hcl, hcr, hisl, hisr⟩ := hinv
  have hLs := unwarp_left_at_switch w hal hdl hcl hisl
  have hMl := unwarp_mid_at_switch_left w ham hisl
  have hMr := unwarp_mid_at_switch_right w ham hisr
  have hRs := unwarp_right_at_switch w har hdr hcr hisr
  have hIsw : w.inv_switch_left ≤ w.inv_switch_right := by
    rw [hisl, hisr]; nlinarith
  unfold unwarp_branch
  by_cases ha1 : a < w.inv_switch_left
  · rw [if_pos ha1]
    by_cases hb1 : b < w.inv_switch_left
    · rw [if_pos hb1]
      exact unwarp_left_mono w hal hab
    · rw [if_neg hb1]
      have l1 : unwarp_left w a ≤ unwarp_left w w.inv_switch_left :=
        unwarp_left_mono w hal (le_of_lt ha1)
      by_cases hb2 : b > w.inv_switch_right
      · rw [if_pos hb2]
        have l2 : unwarp_mid w w.inv_switch_left ≤ unwarp_mid w w.inv_switch_right :=
          unwarp_mid_mono w ham hIsw
        have l3 : unwarp_right w w.inv_switch_right ≤ unwarp_right w b :=
          unwarp_right_mono w har (le_of_lt hb2)
        linarith
      · rw [if_neg hb2]
        have l2 : unwarp_mid w w.inv_switch_left ≤ unwarp_mid w b :=
          unwarp_mid_mono w ham (le_of_not_lt hb1)
        linarith
  · rw [if_neg ha1]
    have hb1 : ¬ b < w.inv_switch_left := fun hbl => ha1 (lt_of_le_of_lt hab hbl)
    rw [if_neg hb1]
    by_cases ha2 : a > w.inv_switch_right
    · have hb2 : b > w.inv_switch_right := lt_of_lt_of_le ha2 hab
      rw [if_pos ha2, if_pos hb2]
      exact unwarp_right_mono w har hab
    · rw [if_neg ha2]
      by_cases hb2 : b > w.inv_switch_right
      · rw [if_pos hb2]
        have l1 : unwarp_mid w a ≤ unwarp_mid w w.inv_switch_right :=
          unwarp_mid_mono w ham (le_of_not_lt ha2)
        have l2 : unwarp_right w w.inv_switch_right ≤ unwarp_right w b :=
          unwarp_right_mono w har (le_of_lt hb2)
        linarith
      · rw [if_neg hb2]
        exact unwarp_mid_mono w ham hab

/-- C8: under the FoveationWarp invariant the shader function `unwarp`
is monotonically non-decreasing, and its adjacent branch formulas agree
exactly (hence continuously) at both inverse switch points. -/
theorem unwarp_monotone_and_continuous (w : FovWarp) (hinv : warp_invariant w) :
    (∀ a b : ℝ, a ≤ b → unwarp w a ≤ unwarp w b) ∧
    unwarp_left w w.inv_switch_left = unwarp_mid w w.inv_switch_left ∧
    unwarp_right w w.inv_switch_right = unwarp_mid w w.inv_switch_right := by
  obtain ⟨hal, ham, har, hsw, hdl, hdr, hcl, hcr, hisl, hisr⟩ := hinv
  refine ⟨?_, ?_, ?_⟩
  · intro a b hab
    have hclamp : clamp01 a ≤ clamp01 b :=
      min_le_min (max_le_max hab le_rfl) le_rfl
    exact unwarp_branch_mono w
      ⟨hal, ham, har, hsw, hdl, hdr, hcl, hcr, hisl, hisr⟩ hclamp
  · rw [unwarp_left_at_switch w hal hdl hcl hisl,
      unwarp_mid_at_switch_left w ham hisl]
  · rw [unwarp_right_at_switch w har hdr hcr hisr,
      unwarp_mid_at_switch_right w ham hisr]

/-- Concrete witness for C8: an explicit parameter set satisfying the
invariant (identity middle segment on [1/2, 3/4] with matching
quadratic tails). -/
theorem unwarp_monotone_and_continuous_witness :
    warp_invariant ⟨1, 0, 1 / 4, 1, 0, 1, 0, 3 / 16, 1 / 2, 3 / 4, 1 / 2, 3 / 4⟩ ∧
    ((∀ a b : ℝ, a ≤ b →
      unwarp ⟨1, 0, 1 / 4, 1, 0, 1, 0, 3 / 16, 1 / 2, 3 / 4, 1 / 2, 3 / 4⟩ a ≤
      unwarp ⟨1, 0, 1 / 4, 1, 0, 1, 0, 3 / 16, 1 / 2, 3 / 4, 1 / 2, 3 / 4⟩ b) ∧
    unwarp_left ⟨1, 0, 1 / 4, 1, 0, 1, 0, 3 / 16, 1 / 2, 3 / 4, 1 / 2, 3 / 4⟩
        (1 / 2) =
      unwarp_mid ⟨1, 0, 1 / 4, 1, 0, 1, 0, 3 / 16, 1 / 2, 3 / 4, 1 / 2, 3 / 4⟩
        (1 / 2) ∧
    unwarp_right ⟨1, 0, 1 / 4, 1, 0, 1, 0, 3 / 16, 1 / 2, 3 / 4, 1 / 2, 3 / 4⟩
        (3 / 4) =
      unwarp_mid ⟨1, 0, 1 / 4, 1, 0, 1, 0, 3 / 16, 1 / 2, 3 / 4, 1 / 2, 3 / 4⟩
        (3 / 4)) :=
  ⟨by norm_num [warp_invariant],
    unwarp_monotone_and_continuous
      ⟨1, 0, 1 / 4, 1, 0, 1, 0, 3 / 16, 1 / 2, 3 / 4, 1 / 2, 3 / 4⟩
      (by norm_num [warp_invariant])⟩

/-- Clearing a category leaves no dirty entity. -/
lemma any_dirty_clear (l : List WEntity) : any_dirty (clear_dirty l) = false := by
  simp [any_dirty, clear_dirty]

/-- Stepping payloads preserves dirty flags. -/
lemma any_dirty_map_val (f : ℕ → ℕ) (l : List WEntity) :
    any_dirty (l.map fun e => { e with val := f e.val }) = any_dirty l := by
  simp only [any_dirty, List.any_map]
  rfl

/-- After the per-category processing of `update_world_objects` (clear
the flags, optionally step the payloads) no entity is dirty. -/
lemma any_dirty_step (f : ℕ → ℕ) (c : Prop) [Decidable c] (l : List WEntity) :
    any_dirty (if c then (clear_dirty l).map (fun e => { e with val := f e.val })
      else clear_dirty l) = false := by
  split_ifs with h
  · rw [any_dirty_map_val]
    exact any_dirty_clear l
  · exact any_dirty_clear l

/-- A category with no dirty entity has dirty count zero. -/
lemma dirty_count_eq_zero (l : List WEntity) (h : any_dirty l = false) :
    dirty_count l = 0 := by
  simp only [any_dirty, List.any_eq_false] at h
  simp only [dirty_count, List.length_eq_zero, List.filter_eq_nil_iff]
  intro e he
  simp [h e he]

/-- C4 counterexample: with every entity clean and the redraw flag
unset but animations enabled, `update_world_objects` still issues two
category uploads (objects and lights) and resets the accumulation,
zeroing the sample counter. -/
theorem update_world_objects_animation_counterexample :
    any_dirty animState.objects = false ∧
    any_dirty animState.materials = false ∧
    any_dirty animState.lights = false ∧
    animState.m_is_dirty = false ∧
    (update_world_objects Nat.succ animState).2.uploads = 2 ∧
    (update_world_objects Nat.succ animState).2.did_reset = true ∧
    (update_world_objects Nat.succ animState).1.spp = 0 := by
  decide

/-- C4 amended: when no entity is dirty, the redraw flag is unset and
animations are disabled, a frame sync issues zero GPU uploads and no
accumulation reset, leaving the sample counter untouched; when exactly
one entity (over all categories) is dirty, animations are disabled and
the testbed is attached, the sync resets the accumulation exactly once
and every dirty flag is clear afterwards. -/
theorem update_world_objects_dirty_tracking_amended (f : ℕ → ℕ)
    (s t : EngineState)
    (h0 : any_dirty s.objects = false) (h1 : any_dirty s.materials = false)
    (h2 : any_dirty s.lights = false) (h3 : s.m_is_dirty = false)
    (h4 : s.enable_animations = false)
    (k1 : dirty_count t.objects + dirty_count t.materials +
      dirty_count t.lights = 1)
    (k2 : t.enable_animations = false) (k3 : t.testbed_present = true) :
    ((update_world_objects f s).2.uploads = 0 ∧
     (update_world_objects f s).2.did_reset = false ∧
     (update_world_objects f s).1.spp = s.spp) ∧
    ((update_world_objects f t).2.did_reset = true ∧
     any_dirty (update_world_objects f t).1.objects = false ∧
     any_dirty (update_world_objects f t).1.materials = false ∧
     any_dirty (update_world_objects f t).1.lights = false) := by
  constructor
  · simp [update_world_objects, h0, h1, h2, h3, h4]
  · have hsome : any_dirty t.objects = true ∨ any_dirty t.materials = true ∨
        any_dirty t.lights = true := by
      by_contra hall
      push_neg at hall
      obtain ⟨a1, a2, a3⟩ := hall
      rw [dirty_count_eq_zero _ (Bool.not_eq_true _ ▸ a1),
        dirty_count_eq_zero _ (Bool.not_eq_true _ ▸ a2),
        dirty_count_eq_zero _ (Bool.not_eq_true _ ▸ a3)] at k1
      exact absurd k1 (by norm_num)
    refine ⟨?_, ?_, ?_, ?_⟩
    · rcases hsome with hd | hd | hd <;> simp [update_world_objects, hd, k2, k3]
    · simp only [update_world_objects]
      exact any_dirty_step f _ t.objects
    · simp only [update_world_objects]
      exact any_dirty_clear t.materials
    · simp only [update_world_objects]
      exact any_dirty_step f _ t.lights

/-- Concrete witness for the amended C4: a clean state with animations
off, and a state whose single dirty entity is a material. -/
theorem update_world_objects_dirty_tracking_amended_witness :
    ((update_world_objects Nat.succ cleanState).2.uploads = 0 ∧
     (update_world_objects Nat.succ cleanState).2.did_reset = false ∧
     (update_world_objects Nat.succ cleanState).1.spp = cleanState.spp) ∧
    ((update_world_objects Nat.succ oneDirtyState).2.did_reset = true ∧
     any_dirty (update_world_objects Nat.succ oneDirtyState).1.objects = false ∧
     any_dirty (update_world_objects Nat.succ oneDirtyState).1.materials = false ∧
     any_dirty (update_world_objects Nat.succ oneDirtyState).1.lights = false) :=
  update_world_objects_dirty_tracking_amended Nat.succ cleanState oneDirtyState
    (by decide) (by decide) (by decide) (by decide) (by decide)
    (by decide) (by decide) (by decide)

/-- C5 counterexample: with every category clean and animations off but
the engine redraw flag set, `update_world_objects` uploads nothing yet
still resets the accumulation — the reset is not equivalent to "some
category changed". -/
theorem update_world_objects_reset_iff_counterexample :
    (update_world_objects Nat.succ redrawState).2.uploads = 0 ∧
    (update_world_objects Nat.succ redrawState).2.did_reset = true := by
  decide

/-- C5 amended: the per-frame sync scans all three categories; a
category with a dirty entity gets its full GPU array rebuilt to mirror
the post-sync CPU list; all dirty flags of every category are cleared;
and the accumulation reset fires exactly when some category upload was
issued or the engine redraw flag is set, provided the testbed is
attached (objects and lights are additionally re-uploaded whenever
animations are enabled). -/
theorem update_world_objects_sync_contract_amended (f : ℕ → ℕ)
    (s : EngineState) :
    (any_dirty s.objects = true →
      (update_world_objects f s).1.d_world =
        (update_world_objects f s).1.objects.map (·.val)) ∧
    (any_dirty s.materials = true →
      (update_world_objects f s).1.d_materials =
        (update_world_objects f s).1.materials.map (·.val)) ∧
    (any_dirty s.lights = true →
      (update_world_objects f s).1.d_lights =
        (update_world_objects f s).1.lights.map (·.val)) ∧
    (any_dirty (update_world_objects f s).1.objects = false ∧
     any_dirty (update_world_objects f s).1.materials = false ∧
     any_dirty (update_world_objects f s).1.lights = false) ∧
    ((update_world_objects f s).2.did_reset =
      ((((update_world_objects f s).2.uploads != 0) || s.m_is_dirty) &&
        s.testbed_present)) := by
  refine ⟨?_, ?_, ?_, ⟨?_, ?_, ?_⟩, ?_⟩
  · intro h; simp [update_world_objects, h]
  · intro h; simp [update_world_objects, h]
  · intro h; simp [update_world_objects, h]
  · simp only [update_world_objects]
    exact any_dirty_step f _ s.objects
  · simp only [update_world_objects]
    exact any_dirty_clear s.materials
  · simp only [update_world_objects]
    exact any_dirty_step f _ s.lights
  · simp only [update_world_objects]
    cases hO : any_dirty s.objects <;> cases hM : any_dirty s.materials <;>
      cases hL : any_dirty s.lights <;> cases hA : s.enable_animations <;>
      cases hD : s.m_is_dirty <;> cases hT : s.testbed_present <;>
        simp [hO, hM, hL, hA, hD, hT]

/-- Concrete witness for the amended C5: all three categories dirty,
animations off, testbed attached. -/
theorem update_world_objects_sync_contract_amended_witness :
    any_dirty allDirtyState.objects = true ∧
    (update_world_objects Nat.succ allDirtyState).1.d_world =
      (update_world_objects Nat.succ allDirtyState).1.objects.map (·.val) ∧
    (update_world_objects Nat.succ allDirtyState).2.did_reset = true :=
  ⟨by decide,
    (update_world_objects_sync_contract_amended Nat.succ allDirtyState).1
      (by decide),
    by
      rw [(update_world_objects_sync_contract_amended Nat.succ
        allDirtyState).2.2.2.2]
      decide⟩

/-- C3 counterexample: with a fully transparent synthetic sample and an
opaque red neural sample, the claimed synthetic-over-background
composite is red, but the shader outputs opaque black: the neural
buffer is never sampled. -/
theorem frag_main_ignores_neural_counterexample :
    frag_main ⟨1, 0, 1 / 4, 1, 0, 1, 0, 3 / 16, 1 / 2, 3 / 4, 1 / 2, 3 / 4⟩
        ⟨1, 0, 1 / 4, 1, 0, 1, 0, 3 / 16, 1 / 2, 3 / 4, 1 / 2, 3 / 4⟩
        (fun _ => ⟨0, 0, 0, 0⟩) (fun _ => 3 / 10)
        (fun _ => ⟨1, 0, 0, 1⟩) (fun _ => 7 / 10) (1 / 2, 1 / 2) =
      (⟨0, 0, 0, 1⟩, 3 / 10) ∧
    alpha_over ⟨0, 0, 0, 0⟩ ⟨1, 0, 0, 1⟩ = ⟨1, 0, 0, 1⟩ ∧
    (⟨0, 0, 0, 1⟩ : Vec4).r ≠ (⟨1, 0, 0, 1⟩ : Vec4).r := by
  refine ⟨rfl, ?_, by norm_num⟩
  simp only [alpha_over, Vec4.mk.injEq]
  norm_num

/-- C3 amended: the compositor fragment shader samples only the
synthetic buffer, at the unwarped source coordinate; the output color
is the synthetic rgb with alpha forced to one (the neural samplers are
bound but unused, so no alpha compositing of the two buffers happens in
the shader), the output depth is passed through from the synthetic
depth sample, and the output is independent of the neural buffers. -/
theorem frag_main_synthetic_only_amended (wx wy : FovWarp)
    (synRgba : ℝ × ℝ → Vec4) (synDepth : ℝ × ℝ → ℝ)
    (n1 n2 : ℝ × ℝ → Vec4) (d1 d2 : ℝ × ℝ → ℝ) (uv : ℝ × ℝ) :
    frag_main wx wy synRgba synDepth n1 d1 uv =
      (⟨(synRgba (unwarp wx uv.1, unwarp wy (1 - uv.2))).r,
        (synRgba (unwarp wx uv.1, unwarp wy (1 - uv.2))).g,
        (synRgba (unwarp wx uv.1, unwarp wy (1 - uv.2))).b, 1⟩,
       synDepth (unwarp wx uv.1, unwarp wy (1 - uv.2))) ∧
    frag_main wx wy synRgba synDepth n1 d1 uv =
      frag_main wx wy synRgba synDepth n2 d2 uv :=
  ⟨rfl, rfl⟩

/-- C6: with `m_img_count_max = 3` and the counter starting at zero,
three successive `advance_image_count` calls return true and the fourth
returns false. -/
theorem advance_image_count_bound :
    (advance_image_count (recStart 3)).1 = true ∧
    (advance_image_count (advance_image_count (recStart 3)).2).1 = true ∧
    (advance_image_count (advance_image_count
      (advance_image_count (recStart 3)).2).2).1 = true ∧
    (advance_image_count (advance_image_count (advance_image_count
      (advance_image_count (recStart 3)).2).2).2).1 = false := by
  decide

/-- C7 counterexample: with the maximum configured to 3, four
successive `save_image` calls all succeed — four sequentially numbered
images are written, one more than the configured maximum; only the
fifth call refuses. -/
theorem save_image_overcount_counterexample :
    (recStart 3).img_count_max = 3 ∧
    (save_iter 4 (recStart 3)).images_written = [1, 2, 3, 4] ∧
    (save_iter 4 (recStart 3)).images_written.length = 4 ∧
    (save_image (save_iter 4 (recStart 3))).1 = false := by
  decide

/-- Invariant of the recording loop: starting from a state whose
written images are exactly `1, ..., img_count` with the counter at most
one past the maximum, after `n` further frames the written images are
exactly `1, ..., min (img_count + n) (img_count_max + 1)`. -/
lemma save_iter_invariant (n : ℕ) : ∀ s : DisplayState,
    s.images_written = (List.range s.img_count).map (· + 1) →
    s.img_count ≤ s.img_count_max + 1 →
    (save_iter n s).images_written =
      (List.range (min (s.img_count + n) (s.img_count_max + 1))).map (· + 1) := by
  induction n with
  | zero =>
    intro s h1 h2
    rw [save_iter, Nat.add_zero, min_eq_left h2]
    exact h1
  | succ n ih =>
    intro s h1 h2
    rw [save_iter]
    by_cases hc : s.img_count > s.img_count_max
    · have hceq : s.img_count = s.img_count_max + 1 := le_antisymm h2 hc
      have hs : (save_image s).2 = s := by
        rw [save_image, if_pos hc]
      rw [hs, ih s h1 h2]
      have hmm : min (s.img_count + n) (s.img_count_max + 1) =
          min (s.img_count + (n + 1)) (s.img_count_max + 1) := by omega
      exact congrArg (fun m => (List.range m).map (· + 1)) hmm
    · push_neg at hc
      have hs : (save_image s).2 =
          { s with
              img_count := s.img_count + 1
              images_written := s.images_written ++ [s.img_count + 1] } := by
        rw [save_image, if_neg (not_lt.mpr hc)]
      rw [hs]
      have h1n : ({ s with
          img_count := s.img_count + 1
          images_written := s.images_written ++ [s.img_count + 1] } :
            DisplayState).images_written =
          (List.range ({ s with
            img_count := s.img_count + 1
            images_written := s.images_written ++ [s.img_count + 1] } :
              DisplayState).img_count).map (· + 1) := by
        simp only [h1, List.range_succ, List.map_append, List.map_cons,
          List.map_nil]
      have h2n : ({ s with
          img_count := s.img_count + 1
          images_written := s.images_written ++ [s.img_count + 1] } :
            DisplayState).img_count ≤ s.img_count_max + 1 := by
        simpa using hc
      rw [ih _ h1n h2n]
      have hmm : min (s.img_count + 1 + n) (s.img_count_max + 1) =
          min (s.img_count + (n + 1)) (s.img_count_max + 1) := by omega
      exact congrArg (fun m => (List.range m).map (· + 1)) hmm

/-- C7 amended: while recording, `save_image` writes sequentially
numbered files `1, 2, ...` driven by the strictly increasing counter,
and refuses (ending the frame loop) once the counter strictly exceeds
the configured maximum; starting from a fresh recording state, after
any number of frames at most `img_count_max + 1` images are written
(one more than the configured maximum, since the bound check uses a
strict comparison before the pre-increment). -/
theorem save_image_bounded_recording_amended (n maxc : ℕ) :
    (save_iter n (recStart maxc)).images_written =
      (List.range (min n (maxc + 1))).map (· + 1) ∧
    (save_iter n (recStart maxc)).images_written.length = min n (maxc + 1) ∧
    (∀ s : DisplayState, s.img_count > s.img_count_max →
      save_image s = (false, s)) := by
  have h := save_iter_invariant n (recStart maxc) (by simp [recStart]) (by simp [recStart])
  refine ⟨?_, ?_, ?_⟩
  · rw [h]
    congr 1
    simp [recStart]
  · rw [h]
    simp [recStart]
  · intro s hs
    rw [save_image, if_pos hs]

/-- Concrete witness for the amended C7: five frames against a maximum
of 3 write exactly four images, and a state past the bound refuses. -/
theorem save_image_bounded_recording_amended_witness :
    ((save_iter 5 (recStart 3)).images_written =
      (List.range (min 5 (3 + 1))).map (· + 1) ∧
     (save_iter 5 (recStart 3)).images_written.length = min 5 (3 + 1) ∧
     (∀ s : DisplayState, s.img_count > s.img_count_max →
       save_image s = (false, s))) ∧
    exceedState.img_count > exceedState.img_count_max ∧
    save_image exceedState = (false, exceedState) :=
  ⟨save_image_bounded_recording_amended 5 3,
    by decide,
    (save_image_bounded_recording_amended 5 3).2.2 exceedState (by decide)⟩

/-- C10: when the display is already initialized (static guard set),
`init_window` returns null and performs no reinitialization — the state
(window, image counter, setup-event count) is untouched; after
`destroy`, which clears the guard, a subsequent `init_window` succeeds
again. -/
theorem init_window_guard (s : DisplayState) (h : s.is_init = true) :
    init_window s = (none, s) ∧
    (init_window (destroy s)).1 = some () ∧
    (init_window (destroy s)).2.is_init = true := by
  refine ⟨?_, ?_, ?_⟩
  · simp [init_window, h]
  · simp [init_window, destroy, h]
  · simp [init_window, destroy, h]

/-- Concrete witness for C10: a concrete initialized display state. -/
theorem init_window_guard_witness :
    initState.is_init = true ∧
    (init_window initState = (none, initState) ∧
     (init_window (destroy initState)).1 = some () ∧
     (init_window (destroy initState)).2.is_init = true) :=
  ⟨by decide, init_window_guard initState (by decide)⟩

end Sng

